import Mathlib

/-!
Verification of the Cube-Launcher runtime & mod-loader provisioning engine.

This file gives a shallow embedding, in Lean 4, of the pure content of the
Forge installer (`crates/ql_mod_manager/src/loaders/forge/mod.rs`), the
Fabric launch-jar synthesizer
(`crates/ql_mod_manager/src/loaders/fabric/make_launch_jar.rs`), and the
Java runtime provisioner (`crates/ql_java_handler/src/lib.rs`), and proves
the behavioural properties stated in the specification against it.

Rust strings are modelled as `List Char` (`str::len` is the UTF-8 byte
length, modelled with `Char.utf8Size`); effectful code is modelled as
explicit state passing over an environment that records the outcome of
every external step (network fetches, subprocess runs, file writes).
-/

namespace CubeLauncher

/-- Shorthand turning a Lean string literal into the `List Char` model of a
Rust string. -/
def str (s : String) : List Char :=
  s.data

/-- UTF-8 byte length of a list of characters; this is what Rust's
`str::len` returns for the string holding those characters. -/
def utf8Len (s : List Char) : Nat :=
  (s.map Char.utf8Size).sum

/-- Model of Rust's `str::split(sep)` for a one-character separator:
splits into the (possibly empty) runs between occurrences of `sep`.
`split` always yields at least one piece; on the empty string it yields
one empty piece, exactly as in Rust. -/
def splitOnChar (sep : Char) : List Char → List (List Char)
  | [] => [[]]
  | c :: rest =>
    match splitOnChar sep rest with
    | [] => [[]]
    | g :: gs => if c = sep then [] :: g :: gs else (c :: g) :: gs

/-- Model of Rust's `str::trim` (both-ends whitespace strip); ASCII
whitespace via `Char.isWhitespace` suffices for the inputs at hand. -/
def trimChars (s : List Char) : List Char :=
  ((s.dropWhile Char.isWhitespace).reverse.dropWhile Char.isWhitespace).reverse

/-- Model of Rust's `str::parse::<usize>()` restricted to plain digit
strings: `some n` when the string is nonempty and all decimal digits. -/
def parseNat : List Char → Option Nat
  | [] => none
  | s =>
    if s.all Char.isDigit then
      some (s.foldl (fun n c => n * 10 + (c.toNat - 48)) 0)
    else
      none

/-! ### Forge JSON data model (`crates/ql_core/src/json/forge.rs`) -/

/-- Model of `JsonDetailsArtifact` from `forge.rs`: explicit download descriptor of
one library artifact. -/
structure JsonDetailsArtifact where
  path : List Char
  url : List Char
  sha1 : List Char
  size : Nat
deriving DecidableEq

/-- Model of `JsonDetailsDownloads` from `forge.rs`. -/
structure JsonDetailsDownloads where
  artifact : JsonDetailsArtifact
deriving DecidableEq

/-- Model of `JsonDetailsLibrary` from `forge.rs`: one declared Forge library. -/
structure JsonDetailsLibrary where
  name : List Char
  url : Option (List Char)
  downloads : Option JsonDetailsDownloads
  clientreq : Option Bool
deriving DecidableEq

/-! ### Embedding of `ForgeInstaller::new` version arithmetic
(`crates/ql_mod_manager/src/loaders/forge/mod.rs`, lines 92-102) -/

/-- The dot-padded normalization of the game version computed in
`ForgeInstaller::new`: a version with exactly one full stop gets `.0`
appended. -/
def norm_version (minecraft_version : List Char) : List Char :=
  if (minecraft_version.filter (fun c => c = '.')).length = 1 then
    minecraft_version ++ str ".0"
  else
    minecraft_version

/-- Model of `short_version` from `ForgeInstaller::new`:
`format!("{minecraft_version}-{version}")`. -/
def short_version (minecraft_version version : List Char) : List Char :=
  minecraft_version ++ str "-" ++ version

/-- Model of `norm_forge_version` from `ForgeInstaller::new`:
`format!("{short_version}-{norm_version}")`. -/
def norm_forge_version (minecraft_version version : List Char) : List Char :=
  short_version minecraft_version version ++ str "-" ++ norm_version minecraft_version

/-- Model of `major_version` from `ForgeInstaller::new`:
`version.split('.').next().unwrap_or(&version).parse()?`; `none` models
the `ParseIntError` sent through `?`. -/
def major_version_of (version : List Char) : Option Nat :=
  parseNat ((splitOnChar '.' version).headD version)

/-! ### The error type and network oracle for the Forge installer -/

/-- The constructors of `ForgeInstallError` that the modelled code paths
can produce. -/
inductive ForgeInstallError
  | request
  | libraryParentError
deriving DecidableEq

/-- Outcome of one network fetch, the oracle for a `file_utils` download
call: success, HTTP 404, or any other transport error. -/
inductive DownloadOutcome
  | success
  | notFound
  | otherError
deriving DecidableEq

/-! ### Embedding of `ForgeInstaller::try_downloading_from_urls` (lines 154-174) -/

/-- Outcome of fetching one candidate installer URL; `ok bytes` abstracts
the downloaded file body. -/
inductive UrlResult
  | ok (bytes : Nat)
  | notFound
  | otherError
deriving DecidableEq

/-- Result of `try_downloading_from_urls`: the downloaded bytes, a typed
`ForgeInstallError::Request` carrying the underlying request error, or the
`panic!` that ends the function body after the loop. -/
inductive TryResult
  | ok (bytes : Nat)
  | fatal (e : UrlResult)
  | panicked
deriving DecidableEq

/-- Model of `ForgeInstaller::try_downloading_from_urls`, with each candidate URL
replaced by the oracle outcome of fetching it: walk the candidates in
order; a success returns its bytes; a `NotFound` on a non-final candidate
continues with the next; any other error, or any error on the final
candidate, returns `Err(ForgeInstallError::Request(err))`; the loop
running out of candidates (possible only for an empty list) hits the
trailing `panic!`. -/
def try_downloading_from_urls : List UrlResult → TryResult
  | [] => .panicked
  | [r] =>
    match r with
    | .ok bytes => .ok bytes
    | e => .fatal e
  | r :: rest =>
    match r with
    | .ok bytes => .ok bytes
    | .notFound => try_downloading_from_urls rest
    | .otherError => .fatal .otherError

/-! ### Embedding of `ForgeInstaller::run_installer_and_get_classpath` (lines 176-206) -/

/-- Model of `ForgeInstaller::run_installer_and_get_classpath`, reduced to its pure
content: for modern majors (`>= 14`) it first runs the bundled installer
(whose success is the oracle `installer_ok`; `none` models the propagated
compile/installer error), then returns the initial classpath: the loader's
own jar entry for majors 14-38, the empty string for majors 39 and above;
for legacy majors the installer jar itself is the entry. `sep` is the
platform `CLASSPATH_SEPARATOR`. -/
def run_installer_and_get_classpath (sep : List Char) (major_version : Nat)
    (short_ver installer_name : List Char) (installer_ok : Bool) :
    Option (List Char) :=
  if major_version ≥ 14 then
    if installer_ok then
      some (if major_version < 39 then
              str "../forge/libraries/net/minecraftforge/forge/" ++ short_ver ++
                str "/forge-" ++ short_ver ++ str ".jar" ++ sep
            else str "")
    else
      none
  else
    some (str "../forge/" ++ installer_name ++ sep)

/-! ### Embedding of `ForgeInstaller::download_library` (lines 310-420) -/

/-- Model of `std::path::Path::parent` on the relative artifact paths the
installer sees: `None` for the empty path, otherwise the path with its
final component removed. -/
def pathParent (p : List Char) : Option (List Char) :=
  if p = [] then
    none
  else
    some (List.intercalate (str "/") ((splitOnChar '/' p).dropLast))

/-- Model of `std::path::Path::file_name` on the same paths: the final
`/`-separated component. -/
def pathFileName (p : List Char) : List Char :=
  (splitOnChar '/' p).getLastD []

/-- Model of `ForgeInstaller::get_filename_and_path`: with an explicit download
descriptor, take the artifact path's file name and parent (erroring with
`LibraryParentError` when the parent does not exist); otherwise derive the
Maven-style `group/artifact/version` path from the dotted group id. -/
def get_filename_and_path (lib ver : List Char) (library : JsonDetailsLibrary)
    (classGroup : List Char) : Except ForgeInstallError (List Char × List Char) :=
  match library.downloads with
  | some downloads =>
    match pathParent downloads.artifact.path with
    | none => .error .libraryParentError
    | some parent => .ok (pathFileName downloads.artifact.path, parent)
  | none =>
    .ok (lib ++ str "-" ++ ver ++ str ".jar",
         (classGroup.map (fun c => if c = '.' then '/' else c)) ++
           str "/" ++ lib ++ str "/" ++ ver)

/-- Model of `ForgeInstaller::add_to_classpath`: append
`"../forge/libraries/{path}/{file}{CLASSPATH_SEPARATOR}"` to the running
classpath string. -/
def add_to_classpath (sep : List Char) (classpath path file : List Char) : List Char :=
  classpath ++ str "../forge/libraries/" ++ path ++ str "/" ++ file ++ sep

/-- The URL `download_library` fetches a library from: the explicit
artifact URL when a download descriptor is present, otherwise the
library's base URL (default `https://libraries.minecraft.net/`) followed
by `{path}/{file}`. -/
def library_url (library : JsonDetailsLibrary) (path file : List Char) : List Char :=
  match library.downloads with
  | some downloads => downloads.artifact.url
  | none =>
    (match library.url with
     | some url => url
     | none => str "https://libraries.minecraft.net/") ++ path ++ str "/" ++ file

/-- Result of one `download_library` call: `ok` carries the updated
classpath and clean-classpath strings plus whether a network download was
performed; `fatal` is a returned `Err`; `panicked` is the out-of-bounds
index panic on `parts[1]`/`parts[2]`. -/
inductive DownloadLibraryResult
  | ok (classpath clean : List Char) (downloaded : Bool)
  | fatal (e : ForgeInstallError) (classpath clean : List Char)
  | panicked
deriving DecidableEq

/-- Model of `ForgeInstaller::download_library`, with file-system and network
effects replaced by the oracles `dest_exists` (does the destination file
already exist) and `net` (outcome of the download). Faithful to the
source order: split `name` on `':'` and index the first three parts
(panicking when absent), append `"{class}:{lib}\n"` to the clean
classpath, derive file name and path, short-circuit the loader's own
`net.minecraftforge:forge` library (classpath-only above major 48, never
downloaded), skip the download when the destination exists, treat a 404
as a logged skip that adds nothing to the classpath, and propagate every
other download error as `Err`. Progress sends and directory creation are
effect-only and elided. -/
def download_library (sep : List Char) (major_version : Nat)
    (library : JsonDetailsLibrary) (dest_exists : Bool) (net : DownloadOutcome)
    (classpath clean : List Char) : DownloadLibraryResult :=
  match splitOnChar ':' library.name with
  | classGroup :: lib :: ver :: _ =>
    let clean := clean ++ classGroup ++ str ":" ++ lib ++ str "\n"
    match get_filename_and_path lib ver library classGroup with
    | .error e => .fatal e classpath clean
    | .ok (file, path) =>
      if classGroup = str "net.minecraftforge" ∧ lib = str "forge" then
        let classpath :=
          if major_version > 48 then add_to_classpath sep classpath path file else classpath
        .ok classpath clean false
      else
        if dest_exists then
          .ok (add_to_classpath sep classpath path file) clean false
        else
          match net with
          | .success => .ok (add_to_classpath sep classpath path file) clean true
          | .notFound => .ok classpath clean false
          | .otherError => .fatal .request classpath clean
  | _ => .panicked

/-! ### The `install_client` library loop (lines 567-585) -/

/-- The library filter applied by `install_client`:
`!matches!(library.clientreq, Some(false))`. -/
def client_filter (libraries : List JsonDetailsLibrary) : List JsonDetailsLibrary :=
  libraries.filter (fun library => !(library.clientreq == some false))

/-- Modelled from the spec: the missing `install_server`
(`crates/ql_mod_manager/src/loaders/forge/server.rs` is not among the
provided sources). Per the spec, a library with `clientreq = false` is
excluded from client installs "but not from server installs", so the
server-side library filter keeps every declared library. -/
def server_filter (libraries : List JsonDetailsLibrary) : List JsonDetailsLibrary :=
  libraries

/-- Result of running the `install_client` library loop to completion:
mirrors `DownloadLibraryResult` lifted over the whole list. -/
inductive LoopResult
  | ok (classpath clean : List Char)
  | fatal (e : ForgeInstallError) (classpath clean : List Char)
  | panicked
deriving DecidableEq

/-- The `for (library_i, library) in libs.into_iter().enumerate()` loop of
`install_client`: fold `download_library` over the libraries, aborting on
the first `Err` (the `?` in the loop body) and propagating a panic. -/
def library_loop (sep : List Char) (major_version : Nat)
    (dest : JsonDetailsLibrary → Bool) (net : JsonDetailsLibrary → DownloadOutcome) :
    List JsonDetailsLibrary → List Char → List Char → LoopResult
  | [], classpath, clean => .ok classpath clean
  | library :: rest, classpath, clean =>
    match download_library sep major_version library (dest library) (net library)
        classpath clean with
    | .ok classpath clean _ => library_loop sep major_version dest net rest classpath clean
    | .fatal e classpath clean => .fatal e classpath clean
    | .panicked => .panicked

/-- The `"{class}:{lib}\n"` line that `download_library` appends to the
clean classpath for one library (defined for names with at least two
`:`-separated components; the loop panics before appending otherwise). -/
def clean_line (library : JsonDetailsLibrary) : List Char :=
  match splitOnChar ':' library.name with
  | classGroup :: lib :: _ => classGroup ++ str ":" ++ lib ++ str "\n"
  | _ => []

/-! ### Manifest line folding
(`crates/ql_mod_manager/src/loaders/fabric/make_launch_jar.rs`,
lines 159-210) -/

/-- Model of Rust's `slice::chunks(69)` as used in `split_string`:
consecutive chunks of 69 characters, the last one possibly shorter. -/
def chunks69 : List Char → List (List Char)
  | [] => []
  | c :: rest => ((c :: rest).take 69) :: chunks69 (rest.drop 68)
termination_by l => l.length
decreasing_by simp; omega

/-- Model of `split_string` from `make_launch_jar.rs`: a string of at most 70
bytes (`s.len()` in Rust is the UTF-8 byte count) is returned as a single
line; otherwise the first 70 *characters* become the first line and the
remaining characters become space-prefixed continuation lines, as one
line when at most 69 bytes remain and otherwise in 69-character chunks. -/
def split_string (s : List Char) : List (List Char) :=
  if utf8Len s ≤ 70 then
    [s]
  else
    let first_part := s.take 70
    let remaining := s.drop 70
    if utf8Len remaining ≤ 69 then
      [first_part, ' ' :: remaining]
    else
      first_part :: (chunks69 remaining).map (fun chunk => ' ' :: chunk)

/-- Model of `ManifestBuilder` from `make_launch_jar.rs`. -/
structure ManifestBuilder where
  lines : List (List Char)
deriving DecidableEq

/-- Model of `ManifestBuilder::new`: starts with the `Manifest-Version: 1.0`
header line. -/
def ManifestBuilder.new : ManifestBuilder :=
  ⟨[str "Manifest-Version: 1.0"]⟩

/-- Model of `ManifestBuilder::add_line`: fold the line with `split_string` and
append the pieces. -/
def ManifestBuilder.add_line (b : ManifestBuilder) (line : List Char) : ManifestBuilder :=
  ⟨b.lines ++ split_string line⟩

/-- Model of `ManifestBuilder::build`: join with `\n` and terminate with a final
newline. -/
def ManifestBuilder.build (b : ManifestBuilder) : List Char :=
  List.intercalate (str "\n") b.lines ++ str "\n"

/-! ### Shaded-jar service merge (`make_launch_jar.rs`, lines 87-157) -/

/-- The `SERVICES_DIR` constant: `"META-INF/services/"`. -/
def SERVICES_DIR : List Char :=
  str "META-INF/services/"

/-- One entry of an input archive, as seen by the shading loop: its name,
whether it is a directory, and its text content. -/
structure ZipEntry where
  name : List Char
  isDir : Bool
  content : List Char
deriving DecidableEq

/-- The condition of the service-merge branch:
`name.starts_with(SERVICES_DIR) && name[SERVICES_DIR.len()..].find('/').is_none()`. -/
def is_service_entry (name : List Char) : Bool :=
  SERVICES_DIR.isPrefixOf name && !((name.drop SERVICES_DIR.length).contains '/')

/-- Model of `HashSet<String>::insert`, modelled on a duplicate-free list: a value
already present is not added again. -/
def setInsert (s : List (List Char)) (x : List Char) : List (List Char) :=
  if x ∈ s then s else s ++ [x]

/-- Model of `HashMap<String, HashSet<String>>`, modelled as a function from
service-file name to its accumulated provider set. -/
def ServiceMap : Type :=
  List Char → List (List Char)

/-- The empty service map: every service name maps to the empty set. -/
def emptyServices : ServiceMap :=
  fun _ => []

/-- Model of `services.entry(name).or_default().insert(v)`. -/
def serviceInsert (m : ServiceMap) (k v : List Char) : ServiceMap :=
  fun k2 => if k2 = k then setInsert (m k) v else m k2

/-- Model of `line.split('#').next().unwrap_or("")`: the part of the line before
its first `#` comment marker. -/
def stripComment (line : List Char) : List Char :=
  (splitOnChar '#' line).headD []

/-- The body of the `for line in data.lines()` loop of
`parse_service_definition`: strip the `#` comment suffix, trim
whitespace, and insert the result into the provider set of `name` unless
it is empty. -/
def service_line_step (name : List Char) (m : ServiceMap) (line : List Char) : ServiceMap :=
  let trimmed_line := trimChars (stripComment line)
  if trimmed_line = [] then m else serviceInsert m name trimmed_line

/-- Model of `parse_service_definition` from `make_launch_jar.rs`: for every line
of the file (Rust's `str::lines`, modelled as splitting on `'\n'`; a
trailing `'\r'` is removed by the `trim` either way), run
`service_line_step`. -/
def parse_service_definition (name data : List Char) (services : ServiceMap) : ServiceMap :=
  (splitOnChar '\n' data).foldl (service_line_step name) services

/-- The evolution of the `services` map across the shaded-mode entry loop
of `make_launch_jar`: directories are skipped, entries directly under
`META-INF/services/` are parsed and merged, and every other branch
(signature skip, duplicate skip, verbatim copy) leaves the map unchanged,
so only the service branch appears here. -/
def collect_services (archives : List (List ZipEntry)) : ServiceMap :=
  archives.foldl
    (fun services archive =>
      archive.foldl
        (fun services entry =>
          if entry.isDir then services
          else if is_service_entry entry.name then
            parse_service_definition entry.name entry.content services
          else services)
        services)
    emptyServices

/-! ### Install-lock lifecycle of `install_java`
(`crates/ql_java_handler/src/lib.rs`, lines 130-157) -/

/-- Externally visible steps of one `install_java` run, in program
order. -/
inductive JEvent
  | writeLock
  | downloadJavaList
  | thirdPartyInstall
  | downloadFilesJson
  | runFileJobs
  | removeLock
deriving DecidableEq

/-- Oracle for one `install_java` run: the success of each effectful
step. `jobs` lists the per-file job outcomes run through `do_jobs`
(which fails when any job fails). -/
structure JavaEnv where
  createDirOk : Bool
  writeLockOk : Bool
  javaListOk : Bool
  primaryUrlAvailable : Bool
  thirdPartyOk : Bool
  filesJsonOk : Bool
  jobs : List Bool
  removeLockOk : Bool

/-- Observable outcome of a lock-guarded run: did it return `Ok`, is the
lock file present afterwards, and which steps were attempted, in order. -/
structure RunOutcome (ev : Type) where
  success : Bool
  lockPresent : Bool
  trace : List ev

/-- Model of `install_java` (together with `install_java_files`): create the
install directory, write `install.lock`, download the Java list JSON,
then either delegate to the third-party installer (when the primary
manifest lacks the platform) or download the file manifest and run every
file job; remove the lock only after everything succeeded. Each `if`
models an early `return Err(..)` via `?`. -/
def install_java_model (env : JavaEnv) : RunOutcome JEvent :=
  if !env.createDirOk then
    ⟨false, false, []⟩
  else if !env.writeLockOk then
    ⟨false, false, []⟩
  else
    let finish (t : List JEvent) : RunOutcome JEvent :=
      if env.removeLockOk then ⟨true, false, t ++ [.removeLock]⟩ else ⟨false, true, t⟩
    let t1 : List JEvent := [.writeLock, .downloadJavaList]
    if !env.javaListOk then
      ⟨false, true, t1⟩
    else if !env.primaryUrlAvailable then
      let t2 := t1 ++ [.thirdPartyInstall]
      if !env.thirdPartyOk then ⟨false, true, t2⟩ else finish t2
    else
      let t2 := t1 ++ [.downloadFilesJson]
      if !env.filesJsonOk then
        ⟨false, true, t2⟩
      else
        let t3 := t2 ++ [.runFileJobs]
        if env.jobs.all id then finish t3 else ⟨false, true, t3⟩

/-! ### Install-lock lifecycle of the Forge client install
(`forge/mod.rs`: `ForgeInstaller::new`, `create_lock_file`,
`install_client`, `remove_lock`) -/

/-- Externally visible steps of one `install_client` run, in program
order. -/
inductive FEvent
  | loadVersionJson
  | ensureLockFile
  | downloadPromotions
  | downloadInstaller
  | jarmodInsert
  | runInstallerProgram
  | downloadLibraries
  | writeArtifacts
  | removeLock
deriving DecidableEq

/-- The effectful steps of `install_client` that can fail (each models an
early `return Err(..)` through `?`). -/
inductive FStep
  | loadVersionJson
  | mkDirs
  | writeLockFile
  | downloadPromotions
  | parseVersion
  | downloadInstaller
  | jarmodInsert
  | runInstallerProgram
  | downloadLibraries
  | writeArtifacts
  | removeLock
deriving DecidableEq

/-- Oracle for one `install_client` run: whether a stale `forge.lock`
already exists, whether the loader version was given explicitly, whether
the resolved game version takes the legacy jarmod path, and the first
effectful step to fail (`none` for a run where every attempted step
succeeds; a run never continues past its first failure, so one first
failing step captures every behaviour of the install). -/
structure ForgeEnv where
  lockAlreadyExists : Bool
  explicitVersion : Bool
  isLegacy : Bool
  failAt : Option FStep

/-- Does step `s` succeed when attempted under environment `env`? -/
def ForgeEnv.ok (env : ForgeEnv) (s : FStep) : Bool :=
  env.failAt != some s

/-- Model of `install_client` as a lock-state machine, in source order:
`ForgeInstaller::new` loads the version JSON, creates the mods dir, then
`create_lock_file` (a pre-existing `forge.lock` is kept, otherwise it is
written) and resolves the loader version (downloading the promotions
document unless one was given explicitly); then the installer jar is
downloaded; a legacy game version is jarmod-patched and the run returns
`Ok` early; otherwise the bundled installer program is compiled and run
and the version descriptor extracted, the libraries are resolved, the
artifacts (`classpath.txt`, `clean_classpath.txt`, `details.json`,
instance type) are persisted, and only then `remove_lock` deletes
`forge.lock`. -/
def install_client_model (env : ForgeEnv) : RunOutcome FEvent :=
  if !(env.ok .loadVersionJson) then
    ⟨false, env.lockAlreadyExists, [.loadVersionJson]⟩
  else if !(env.ok .mkDirs) then
    ⟨false, env.lockAlreadyExists, [.loadVersionJson]⟩
  else if !env.lockAlreadyExists && !(env.ok .writeLockFile) then
    ⟨false, false, [.loadVersionJson]⟩
  else
    let t0 : List FEvent := [.loadVersionJson, .ensureLockFile]
    let t1 := if env.explicitVersion then t0 else t0 ++ [.downloadPromotions]
    if !env.explicitVersion && !(env.ok .downloadPromotions) then
      ⟨false, true, t1⟩
    else if !(env.ok .parseVersion) then
      ⟨false, true, t1⟩
    else
      let t2 := t1 ++ [.downloadInstaller]
      if !(env.ok .downloadInstaller) then
        ⟨false, true, t2⟩
      else if env.isLegacy then
        let t3 := t2 ++ [.jarmodInsert]
        if env.ok .jarmodInsert then ⟨true, true, t3⟩ else ⟨false, true, t3⟩
      else
        let t3 := t2 ++ [.runInstallerProgram]
        if !(env.ok .runInstallerProgram) then
          ⟨false, true, t3⟩
        else
          let t4 := t3 ++ [.downloadLibraries]
          if !(env.ok .downloadLibraries) then
            ⟨false, true, t4⟩
          else
            let t5 := t4 ++ [.writeArtifacts]
            if !(env.ok .writeArtifacts) then
              ⟨false, true, t5⟩
            else if env.ok .removeLock then
              ⟨true, false, t5 ++ [.removeLock]⟩
            else
              ⟨false, true, t5⟩

/-! ## Theorems -/

/-- Claim C1: for a client Forge install with game version `"1.12.2"` and
explicit loader version `"14.23.5.2859"` (major version 14),
`ForgeInstaller::new` computes the short-form identifier
`"1.12.2-14.23.5.2859"`, and `run_installer_and_get_classpath` returns
the initial classpath entry
`"../forge/libraries/net/minecraftforge/forge/1.12.2-14.23.5.2859/forge-1.12.2-14.23.5.2859.jar"`
followed by the platform classpath separator. -/
theorem claim_c1 (sep installer_name : List Char) :
    short_version (str "1.12.2") (str "14.23.5.2859") = str "1.12.2-14.23.5.2859" ∧
    major_version_of (str "14.23.5.2859") = some 14 ∧
    run_installer_and_get_classpath sep 14
        (short_version (str "1.12.2") (str "14.23.5.2859")) installer_name true =
      some
        (str "../forge/libraries/net/minecraftforge/forge/1.12.2-14.23.5.2859/forge-1.12.2-14.23.5.2859.jar"
          ++ sep) := by
  refine ⟨by decide, by decide, ?_⟩
  show some
      ((str "../forge/libraries/net/minecraftforge/forge/" ++
          short_version (str "1.12.2") (str "14.23.5.2859") ++ str "/forge-" ++
          short_version (str "1.12.2") (str "14.23.5.2859") ++ str ".jar") ++ sep) = _
  exact congrArg (fun x => some (x ++ sep)) (by decide)

/-- Claim C3: `try_downloading_from_urls` tries the candidate URLs
strictly in order; for every candidate except the last, a `NotFound`
result moves on to the next candidate; any other error, or exhausting the
(nonempty) candidate list, is surfaced as a typed error rather than a
panic. -/
theorem claim_c3 :
    (∀ urls : List UrlResult, urls ≠ [] →
        try_downloading_from_urls urls ≠ .panicked) ∧
    (∀ (bytes : Nat) (rest : List UrlResult),
        try_downloading_from_urls (.ok bytes :: rest) = .ok bytes) ∧
    (∀ rest : List UrlResult, rest ≠ [] →
        try_downloading_from_urls (.notFound :: rest) = try_downloading_from_urls rest) ∧
    try_downloading_from_urls [.notFound] = .fatal .notFound ∧
    (∀ rest : List UrlResult,
        try_downloading_from_urls (.otherError :: rest) = .fatal .otherError) := by
  refine ⟨?_, ?_, ?_, rfl, ?_⟩
  · intro urls h
    induction urls with
    | nil => exact absurd rfl h
    | cons r rest ih =>
      cases rest with
      | nil => cases r <;> simp [try_downloading_from_urls]
      | cons r2 rest2 =>
        cases r with
        | ok bytes => simp [try_downloading_from_urls]
        | notFound =>
          have := ih (by simp)
          simpa [try_downloading_from_urls] using this
        | otherError => simp [try_downloading_from_urls]
  · intro bytes rest
    cases rest <;> rfl
  · intro rest h
    cases rest with
    | nil => exact absurd rfl h
    | cons r2 rest2 => rfl
  · intro rest
    cases rest <;> rfl

/-- Witness for Claim C3 at a concrete candidate list: with outcomes
`[notFound, ok 5]` the download does not panic and the 404 on the
non-final candidate moves on to the next candidate. -/
theorem claim_c3_witness :
    try_downloading_from_urls [.notFound, .ok 5] ≠ .panicked ∧
    try_downloading_from_urls [.notFound, .ok 5] = try_downloading_from_urls [.ok 5] :=
  ⟨claim_c3.1 [.notFound, .ok 5] (by decide),
   claim_c3.2.2.1 [.ok 5] (by decide)⟩

/-- Unfolding lemma for `download_library` once the library name is known
to have at least three `':'`-separated components. -/
theorem download_library_eq (sep : List Char) (major_version : Nat)
    (library : JsonDetailsLibrary) (dest_exists : Bool) (net : DownloadOutcome)
    (classpath clean : List Char) (classGroup lib ver : List Char)
    (rest : List (List Char))
    (hname : splitOnChar ':' library.name = classGroup :: lib :: ver :: rest) :
    download_library sep major_version library dest_exists net classpath clean =
      (let clean2 := clean ++ classGroup ++ str ":" ++ lib ++ str "\n"
       match get_filename_and_path lib ver library classGroup with
       | .error e => .fatal e classpath clean2
       | .ok (file, path) =>
         if classGroup = str "net.minecraftforge" ∧ lib = str "forge" then
           .ok (if major_version > 48 then add_to_classpath sep classpath path file
                else classpath) clean2 false
         else if dest_exists then
           .ok (add_to_classpath sep classpath path file) clean2 false
         else
           match net with
           | .success => .ok (add_to_classpath sep classpath path file) clean2 true
           | .notFound => .ok classpath clean2 false
           | .otherError => .fatal .request classpath clean2) := by
  unfold download_library
  rw [hname]

/-- Claim C2: for every Forge library entry whose name parses to group
`net.minecraftforge` and artifact `forge`, `download_library` performs no
download (and succeeds), and the entry is added to the running classpath
exactly when the major version is above 48. -/
theorem claim_c2 (sep : List Char) (major_version : Nat)
    (library : JsonDetailsLibrary) (dest_exists : Bool) (net : DownloadOutcome)
    (classpath clean : List Char) (ver : List Char) (rest : List (List Char))
    (file path : List Char)
    (hname : splitOnChar ':' library.name =
      str "net.minecraftforge" :: str "forge" :: ver :: rest)
    (hfp : get_filename_and_path (str "forge") ver library (str "net.minecraftforge") =
      .ok (file, path)) :
    download_library sep major_version library dest_exists net classpath clean =
      .ok (if major_version > 48 then add_to_classpath sep classpath path file else classpath)
        (clean ++ str "net.minecraftforge" ++ str ":" ++ str "forge" ++ str "\n")
        false := by
  rw [download_library_eq sep major_version library dest_exists net classpath clean
    _ _ _ _ hname]
  dsimp only
  rw [hfp]
  simp

/-- Witness for Claim C2: the loader's own library at major version 49 is
skipped without a download yet its jar lands on the classpath. -/
theorem claim_c2_witness :
    download_library (str ";") 49
        ⟨str "net.minecraftforge:forge:41.0.63", none, none, none⟩ false .success [] [] =
      .ok
        (if 49 > 48 then
          add_to_classpath (str ";") [] (str "net/minecraftforge/forge/41.0.63")
            (str "forge-41.0.63.jar")
        else [])
        ([] ++ str "net.minecraftforge" ++ str ":" ++ str "forge" ++ str "\n") false :=
  claim_c2 (str ";") 49 ⟨str "net.minecraftforge:forge:41.0.63", none, none, none⟩
    false .success [] [] (str "41.0.63") [] (str "forge-41.0.63.jar")
    (str "net/minecraftforge/forge/41.0.63") (by decide) (by rfl)

/-- Claim C4: during library resolution, an individual library whose
download fails with 404 is skipped and `download_library` returns `Ok`
(the install continues); any other download error is propagated as a
typed `Err` and aborts the install. -/
theorem claim_c4 (sep : List Char) (major_version : Nat)
    (library : JsonDetailsLibrary) (classpath clean : List Char)
    (classGroup lib ver : List Char) (rest : List (List Char)) (file path : List Char)
    (hname : splitOnChar ':' library.name = classGroup :: lib :: ver :: rest)
    (hfp : get_filename_and_path lib ver library classGroup = .ok (file, path))
    (hnotforge : ¬(classGroup = str "net.minecraftforge" ∧ lib = str "forge")) :
    download_library sep major_version library false .notFound classpath clean =
      .ok classpath (clean ++ classGroup ++ str ":" ++ lib ++ str "\n") false ∧
    download_library sep major_version library false .otherError classpath clean =
      .fatal .request classpath (clean ++ classGroup ++ str ":" ++ lib ++ str "\n") := by
  constructor <;>
    · rw [download_library_eq sep major_version library false _ classpath clean
        _ _ _ _ hname]
      dsimp only
      rw [hfp]
      simp [hnotforge]

/-- Witness for Claim C4: a junit library entry whose download 404s is
skipped, while any other failure on it aborts with a typed error. -/
theorem claim_c4_witness :
    download_library (str ":") 14 ⟨str "junit:junit:4.12", none, none, none⟩
        false .notFound [] [] =
      .ok [] ([] ++ str "junit" ++ str ":" ++ str "junit" ++ str "\n") false ∧
    download_library (str ":") 14 ⟨str "junit:junit:4.12", none, none, none⟩
        false .otherError [] [] =
      .fatal .request [] ([] ++ str "junit" ++ str ":" ++ str "junit" ++ str "\n") :=
  claim_c4 (str ":") 14 ⟨str "junit:junit:4.12", none, none, none⟩ [] []
    (str "junit") (str "junit") (str "4.12") [] (str "junit-4.12.jar")
    (str "junit/junit/4.12") (by decide) (by rfl) (by decide)

/-- Lock lifecycle of `install_java`: the lock write is the first
attempted step (so it precedes every manifest download), the lock is
removed only as the final step and only when every file job of the
primary path succeeded, and a failed run that got as far as writing the
lock leaves the lock on disk. -/
theorem install_java_lock_props (env : JavaEnv) :
    ((install_java_model env).trace ≠ [] →
      (install_java_model env).trace.head? = some JEvent.writeLock) ∧
    (JEvent.removeLock ∈ (install_java_model env).trace →
      (install_java_model env).trace.getLast? = some JEvent.removeLock ∧
      (env.primaryUrlAvailable = true → env.jobs.all id = true)) ∧
    ((install_java_model env).success = false →
      JEvent.writeLock ∈ (install_java_model env).trace →
      (install_java_model env).lockPresent = true) := by
  obtain ⟨cd, wl, jl, pu, tp, fj, jobs, rl⟩ := env
  simp only [install_java_model]
  cases cd <;> cases wl <;> cases jl <;> cases pu <;> cases tp <;> cases fj <;>
    cases rl <;> cases hj : jobs.all id <;> simp_all

/-- Lock lifecycle of the Forge client install: whenever a download was
attempted the trace begins with loading the version JSON followed by
`create_lock_file`, the lock is removed only as the final step of a
successful run after the artifacts were persisted, and a failed run that
got as far as `create_lock_file` leaves `forge.lock` on disk. -/
theorem install_client_lock_props (env : ForgeEnv) :
    ((FEvent.downloadPromotions ∈ (install_client_model env).trace ∨
      FEvent.downloadInstaller ∈ (install_client_model env).trace) →
      (install_client_model env).trace.take 2 =
        [FEvent.loadVersionJson, FEvent.ensureLockFile]) ∧
    (FEvent.removeLock ∈ (install_client_model env).trace →
      FEvent.writeArtifacts ∈ (install_client_model env).trace ∧
      (install_client_model env).trace.getLast? = some FEvent.removeLock ∧
      (install_client_model env).success = true) ∧
    ((install_client_model env).success = false →
      FEvent.ensureLockFile ∈ (install_client_model env).trace →
      (install_client_model env).lockPresent = true) := by
  obtain ⟨lae, ev, il, failAt⟩ := env
  cases failAt with
  | none =>
    cases lae <;> cases ev <;> cases il <;>
      simp_all [install_client_model, ForgeEnv.ok]
  | some s =>
    cases s <;> cases lae <;> cases ev <;> cases il <;>
      simp_all [install_client_model, ForgeEnv.ok]

/-- Claim C6: `install_java` writes `install.lock` before downloading any
manifest file and removes it only after every file job has succeeded; the
Forge installer creates `forge.lock` during `ForgeInstaller::new` before
any download and removes it only after all artifacts are persisted;
consequently a run that fails at any step after the lock was written
leaves the lock file on disk. -/
theorem claim_c6 (jenv : JavaEnv) (fenv : ForgeEnv) :
    (((install_java_model jenv).trace ≠ [] →
        (install_java_model jenv).trace.head? = some JEvent.writeLock) ∧
      (JEvent.removeLock ∈ (install_java_model jenv).trace →
        (install_java_model jenv).trace.getLast? = some JEvent.removeLock ∧
        (jenv.primaryUrlAvailable = true → jenv.jobs.all id = true)) ∧
      ((install_java_model jenv).success = false →
        JEvent.writeLock ∈ (install_java_model jenv).trace →
        (install_java_model jenv).lockPresent = true)) ∧
    (((FEvent.downloadPromotions ∈ (install_client_model fenv).trace ∨
        FEvent.downloadInstaller ∈ (install_client_model fenv).trace) →
        (install_client_model fenv).trace.take 2 =
          [FEvent.loadVersionJson, FEvent.ensureLockFile]) ∧
      (FEvent.removeLock ∈ (install_client_model fenv).trace →
        FEvent.writeArtifacts ∈ (install_client_model fenv).trace ∧
        (install_client_model fenv).trace.getLast? = some FEvent.removeLock ∧
        (install_client_model fenv).success = true) ∧
      ((install_client_model fenv).success = false →
        FEvent.ensureLockFile ∈ (install_client_model fenv).trace →
        (install_client_model fenv).lockPresent = true)) :=
  ⟨install_java_lock_props jenv, install_client_lock_props fenv⟩

/-- Witness for Claim C6: a Java install whose file-manifest download
fails, and a Forge install whose bundled installer run fails, both leave
their lock file on disk. -/
theorem claim_c6_witness :
    (install_java_model ⟨true, true, true, true, true, false, [true], true⟩).lockPresent =
      true ∧
    (install_client_model ⟨false, true, false, some .runInstallerProgram⟩).lockPresent =
      true :=
  ⟨(claim_c6 ⟨true, true, true, true, true, false, [true], true⟩
      ⟨false, true, false, some .runInstallerProgram⟩).1.2.2 (by decide) (by decide),
   (claim_c6 ⟨true, true, true, true, true, false, [true], true⟩
      ⟨false, true, false, some .runInstallerProgram⟩).2.2.2 (by decide) (by decide)⟩

/-- On a string of ASCII (one-byte) characters, the UTF-8 byte length
equals the character count. -/
theorem utf8Len_ascii (s : List Char) (h : ∀ c ∈ s, c.utf8Size = 1) :
    utf8Len s = s.length := by
  induction s with
  | nil => rfl
  | cons c rest ih =>
    simp only [utf8Len, List.map_cons, List.sum_cons, List.length_cons] at *
    rw [h c (by simp), ih (fun d hd => h d (by simp [hd]))]
    omega

/-- Model of `chunks(69)` of a 70-element list: one full chunk of 69 and one
single-element chunk. -/
theorem chunks69_length_70 (l : List Char) (h : l.length = 70) :
    chunks69 l = [l.take 69, l.drop 69] := by
  cases l with
  | nil => simp at h
  | cons c rest =>
    have h2 : rest.length = 69 := by simpa using h
    have h1 : (rest.drop 68).length = 1 := by
      simp only [List.length_drop, h2]
    cases hd : rest.drop 68 with
    | nil => rw [hd] at h1; simp at h1
    | cons d u =>
      have hu : u = [] := by
        rw [hd] at h1
        simpa using h1
      subst hu
      simp only [chunks69, hd]
      simp [chunks69, List.drop_succ_cons, hd]

/-- Counterexample to Claim C7 as stated: 36 copies of `'é'` form a line
of 36 (at most 70) characters, yet `split_string` does not return it
unchanged, because the code tests the UTF-8 byte length (72 here) and not
the character count. -/
theorem claim_c7_counterexample :
    (List.replicate 36 'é').length ≤ 70 ∧
    split_string (List.replicate 36 'é') ≠ [List.replicate 36 'é'] := by
  constructor
  · decide
  · decide

/-- Claim C7 (amended): for every input line of at most 70 UTF-8 bytes
(in particular every ASCII line of at most 70 characters) `split_string`
returns the line unchanged; an ASCII `Class-Path` value line of 140
characters is folded into a first line of exactly 70 characters followed
by continuation lines each beginning with one space and carrying at most
69 further characters. -/
theorem claim_c7_amended :
    (∀ s : List Char, utf8Len s ≤ 70 → split_string s = [s]) ∧
    (∀ s : List Char, (∀ c ∈ s, c.utf8Size = 1) → s.length = 140 →
      split_string s =
        [s.take 70, ' ' :: (s.drop 70).take 69, ' ' :: (s.drop 70).drop 69] ∧
      (s.take 70).length = 70 ∧
      (∀ cont ∈ (split_string s).tail,
        ∃ body, cont = ' ' :: body ∧ body.length ≤ 69)) := by
  constructor
  · intro s h
    rw [split_string, if_pos h]
  · intro s hascii hlen
    have hl : utf8Len s = 140 := by rw [utf8Len_ascii s hascii, hlen]
    have h70 : ¬ utf8Len s ≤ 70 := by omega
    have hremlen : (s.drop 70).length = 70 := by
      simp [hlen]
    have hreml : utf8Len (s.drop 70) = 70 := by
      rw [utf8Len_ascii _ (fun c hc => hascii c (List.drop_subset _ _ hc)), hremlen]
    have h69 : ¬ utf8Len (s.drop 70) ≤ 69 := by omega
    have heq : split_string s =
        [s.take 70, ' ' :: (s.drop 70).take 69, ' ' :: (s.drop 70).drop 69] := by
      rw [split_string, if_neg h70]
      simp only [if_neg h69, chunks69_length_70 _ hremlen, List.map_cons, List.map_nil]
    refine ⟨heq, ?_, ?_⟩
    · simp [hlen]
    · intro cont hcont
      rw [heq] at hcont
      simp only [List.tail_cons, List.mem_cons, List.not_mem_nil, or_false] at hcont
      rcases hcont with h1 | h1
      · exact ⟨(s.drop 70).take 69, h1, by simp⟩
      · refine ⟨(s.drop 70).drop 69, h1, ?_⟩
        simp only [List.length_drop, hlen]
        omega

set_option maxRecDepth 4000 in
/-- Witness for the amended Claim C7: a short ASCII line is kept intact,
and the 140-character all-`'a'` line folds into three lines. -/
theorem claim_c7_amended_witness :
    split_string (str "Manifest-Version: 1.0") = [str "Manifest-Version: 1.0"] ∧
    split_string (List.replicate 140 'a') =
      [(List.replicate 140 'a').take 70,
       ' ' :: ((List.replicate 140 'a').drop 70).take 69,
       ' ' :: ((List.replicate 140 'a').drop 70).drop 69] :=
  ⟨claim_c7_amended.1 (str "Manifest-Version: 1.0") (by decide),
   (claim_c7_amended.2 (List.replicate 140 'a') (by decide) (by decide)).1⟩

/-- Membership in a `HashSet`-style insert: the new set holds exactly the
old elements and the inserted value. -/
theorem setInsert_mem (s : List (List Char)) (v x : List Char) :
    x ∈ setInsert s v ↔ x ∈ s ∨ x = v := by
  unfold setInsert
  split
  · rename_i hv
    constructor
    · exact Or.inl
    · rintro (h | rfl)
      · exact h
      · exact hv
  · simp

/-- Inserting into a duplicate-free set keeps it duplicate-free. -/
theorem setInsert_nodup (s : List (List Char)) (v : List Char) (h : s.Nodup) :
    (setInsert s v).Nodup := by
  unfold setInsert
  split
  · exact h
  · rename_i hv
    simp [List.nodup_append, h, hv]

/-- A left fold preserves any invariant its step preserves. -/
theorem foldl_preserves {α β : Type} (P : β → Prop) (f : β → α → β)
    (hf : ∀ b a, P b → P (f b a)) :
    ∀ (l : List α) (b : β), P b → P (l.foldl f b) := by
  intro l
  induction l with
  | nil => intro b h; exact h
  | cons a rest ih => intro b h; exact ih _ (hf b a h)

/-- What ends up in the provider set of `name` after folding
`service_line_step` over a list of lines: the previous contents plus
every nonempty comment-stripped trimmed line. -/
theorem service_fold_mem (name p : List Char) :
    ∀ (lines : List (List Char)) (m : ServiceMap),
      (p ∈ (lines.foldl (service_line_step name) m) name ↔
        p ∈ m name ∨
        (p ≠ [] ∧ ∃ line ∈ lines, trimChars (stripComment line) = p)) := by
  intro lines
  induction lines with
  | nil => intro m; simp
  | cons line rest ih =>
    intro m
    rw [List.foldl_cons, ih]
    unfold service_line_step
    split
    · rename_i hempty
      constructor
      · rintro (h | ⟨hne, l, hl, hlp⟩)
        · exact Or.inl h
        · exact Or.inr ⟨hne, l, List.mem_cons_of_mem _ hl, hlp⟩
      · rintro (h | ⟨hne, l, hl, hlp⟩)
        · exact Or.inl h
        · rcases List.mem_cons.mp hl with heq | hmem
          · subst heq
            exact absurd (hlp ▸ hempty) hne
          · exact Or.inr ⟨hne, l, hmem, hlp⟩
    · rename_i hne
      have hkey : (serviceInsert m name (trimChars (stripComment line))) name =
          setInsert (m name) (trimChars (stripComment line)) := by
        simp [serviceInsert]
      rw [hkey, setInsert_mem]
      constructor
      · rintro ((h | rfl) | ⟨hne2, l, hl, hlp⟩)
        · exact Or.inl h
        · exact Or.inr ⟨hne, line, List.mem_cons_self _ _, rfl⟩
        · exact Or.inr ⟨hne2, l, List.mem_cons_of_mem _ hl, hlp⟩
      · rintro (h | ⟨hne2, l, hl, hlp⟩)
        · exact Or.inl (Or.inl h)
        · rcases List.mem_cons.mp hl with heq | hmem
          · subst heq
            exact Or.inl (Or.inr hlp.symm)
          · exact Or.inr ⟨hne2, l, hmem, hlp⟩

/-- Folding `service_line_step` for one service file leaves every other
service name's provider set untouched. -/
theorem service_fold_other (name k : List Char) (hk : k ≠ name) :
    ∀ (lines : List (List Char)) (m : ServiceMap),
      (lines.foldl (service_line_step name) m) k = m k := by
  intro lines
  induction lines with
  | nil => intro m; rfl
  | cons line rest ih =>
    intro m
    rw [List.foldl_cons, ih]
    unfold service_line_step
    split
    · rfl
    · simp [serviceInsert, hk]

/-- Every provider set accumulated by `collect_services` is
duplicate-free. -/
theorem collect_services_nodup (archives : List (List ZipEntry)) :
    ∀ k, ((collect_services archives) k).Nodup := by
  unfold collect_services
  refine foldl_preserves (fun m => ∀ k, (m k).Nodup) _ ?_ archives emptyServices
    (fun k => List.nodup_nil)
  intro m archive hm
  refine foldl_preserves (fun m => ∀ k, (m k).Nodup) _ ?_ archive m hm
  intro m2 entry hm2
  split
  · exact hm2
  · split
    · unfold parse_service_definition
      refine foldl_preserves (fun m => ∀ k, (m k).Nodup) _ ?_ _ m2 hm2
      intro m3 line hm3 k
      unfold service_line_step
      split
      · exact hm3 k
      · unfold serviceInsert
        split
        · exact setInsert_nodup _ _ (hm3 _)
        · exact hm3 k
    · exact hm2

/-- Claim C8: in shaded mode, provider class names from every input
archive's service files directly under `META-INF/services/` are merged
per service name with `#` comments stripped and blank lines ignored,
other service names are unaffected, provider sets never hold duplicates,
and two archives both declaring `com.example.Impl` under
`META-INF/services/com.example.Svc` yield that provider exactly once. -/
theorem claim_c8 :
    (∀ (name data : List Char) (services : ServiceMap) (p : List Char),
      p ∈ parse_service_definition name data services name ↔
        p ∈ services name ∨
        (p ≠ [] ∧ ∃ line ∈ splitOnChar '\n' data,
          trimChars (stripComment line) = p)) ∧
    (∀ (name k data : List Char) (services : ServiceMap), k ≠ name →
      parse_service_definition name data services k = services k) ∧
    (∀ (archives : List (List ZipEntry)) (k : List Char),
      ((collect_services archives) k).Nodup) ∧
    collect_services
        [[⟨str "META-INF/services/com.example.Svc", false, str "com.example.Impl\n"⟩],
         [⟨str "META-INF/services/com.example.Svc", false, str "com.example.Impl\n"⟩]]
        (str "META-INF/services/com.example.Svc") = [str "com.example.Impl"] := by
  refine ⟨?_, ?_, ?_, ?_⟩
  · intro name data services p
    exact service_fold_mem name p (splitOnChar '\n' data) services
  · intro name k data services hk
    exact service_fold_other name k hk (splitOnChar '\n' data) services
  · intro archives k
    exact collect_services_nodup archives k
  · decide

/-- Witness for Claim C8: parsing one service file does not touch the
provider set of a different service name. -/
theorem claim_c8_witness :
    parse_service_definition (str "META-INF/services/com.example.Svc")
        (str "com.example.Impl\n") emptyServices (str "META-INF/services/other") =
      emptyServices (str "META-INF/services/other") :=
  claim_c8.2.1 (str "META-INF/services/com.example.Svc")
    (str "META-INF/services/other") (str "com.example.Impl\n") emptyServices
    (by decide)

/-- Claim C10: `download_library` unconditionally indexes the first three
`':'`-separated components of the library name: a name with fewer than
three components makes it panic (out-of-bounds index) instead of
returning a typed `ForgeInstallError`, and a name with at least three
components never reaches that panic. -/
theorem claim_c10 (sep : List Char) (major_version : Nat)
    (library : JsonDetailsLibrary) (dest_exists : Bool) (net : DownloadOutcome)
    (classpath clean : List Char) :
    ((splitOnChar ':' library.name).length < 3 →
      download_library sep major_version library dest_exists net classpath clean =
        .panicked) ∧
    (3 ≤ (splitOnChar ':' library.name).length →
      download_library sep major_version library dest_exists net classpath clean ≠
        .panicked) := by
  constructor <;> intro h <;> unfold download_library
  · match hs : splitOnChar ':' library.name with
    | [] => rfl
    | [a] => rfl
    | [a, b] => rfl
    | a :: b :: c :: rest => rw [hs] at h; simp at h; omega
  · match hs : splitOnChar ':' library.name with
    | [] => rw [hs] at h; simp at h
    | [a] => rw [hs] at h; simp at h
    | [a, b] => rw [hs] at h; simp at h
    | a :: b :: c :: rest =>
      cases hfp : get_filename_and_path b c library a with
      | error e => simp [hfp]
      | ok fp =>
        simp only [hfp]
        split
        · simp
        · split
          · simp
          · cases net <;> simp

/-- Claim C5: a library entry with `clientreq = false` is filtered out by
`install_client` before library resolution (it is not in the list the
library loop runs over, so it never contributes to the client classpath),
while the server install does not exclude such a library. -/
theorem claim_c5 (library : JsonDetailsLibrary)
    (libraries : List JsonDetailsLibrary)
    (hreq : library.clientreq = some false) :
    library ∉ client_filter libraries ∧
    (∀ l ∈ client_filter libraries, l.clientreq ≠ some false) ∧
    server_filter libraries = libraries := by
  refine ⟨?_, ?_, rfl⟩
  · intro hmem
    rw [client_filter, List.mem_filter] at hmem
    simp [hreq] at hmem
  · intro l hl
    rw [client_filter, List.mem_filter] at hl
    simpa using hl.2

/-- Witness for Claim C5: a concrete `clientreq = false` library is
dropped by the client filter and kept by the server filter. -/
theorem claim_c5_witness :
    (⟨str "org.scala-lang:scala-library:2.11.1", none, none, some false⟩ :
        JsonDetailsLibrary) ∉
      client_filter [⟨str "org.scala-lang:scala-library:2.11.1", none, none, some false⟩] ∧
    server_filter [(⟨str "org.scala-lang:scala-library:2.11.1", none, none, some false⟩ :
        JsonDetailsLibrary)] =
      [⟨str "org.scala-lang:scala-library:2.11.1", none, none, some false⟩] :=
  ⟨(claim_c5 _ [⟨str "org.scala-lang:scala-library:2.11.1", none, none, some false⟩]
      rfl).1,
   (claim_c5 ⟨str "org.scala-lang:scala-library:2.11.1", none, none, some false⟩
      [⟨str "org.scala-lang:scala-library:2.11.1", none, none, some false⟩] rfl).2.2⟩

/-- Every `Ok` return of `download_library` has appended exactly the
`"{class}:{lib}\n"` line of its library to the clean classpath. -/
theorem download_library_ok_clean (sep : List Char) (major_version : Nat)
    (library : JsonDetailsLibrary) (dest_exists : Bool) (net : DownloadOutcome)
    (classpath clean classpath2 clean2 : List Char) (downloaded : Bool)
    (h : download_library sep major_version library dest_exists net classpath clean =
      .ok classpath2 clean2 downloaded) :
    clean2 = clean ++ clean_line library := by
  match hs : splitOnChar ':' library.name with
  | [] => rw [download_library, hs] at h; cases h
  | [a] => rw [download_library, hs] at h; cases h
  | [a, b] => rw [download_library, hs] at h; cases h
  | classGroup :: lib :: ver :: rest =>
    rw [download_library_eq sep major_version library dest_exists net classpath clean
      _ _ _ _ hs] at h
    dsimp only at h
    rw [clean_line, hs]
    cases hfp : get_filename_and_path lib ver library classGroup with
    | error e => rw [hfp] at h; cases h
    | ok fp =>
      obtain ⟨file, path⟩ := fp
      rw [hfp] at h
      dsimp only at h
      split at h
      · cases h; simp
      · split at h
        · cases h; simp
        · cases net <;> simp_all

/-- The library loop of `install_client`, when it completes without a
fatal error, has written one clean-classpath line for every processed
library, in declaration order. -/
theorem library_loop_clean (sep : List Char) (major_version : Nat)
    (dest : JsonDetailsLibrary → Bool) (net : JsonDetailsLibrary → DownloadOutcome) :
    ∀ (libs : List JsonDetailsLibrary) (classpath clean classpath2 clean2 : List Char),
      library_loop sep major_version dest net libs classpath clean = .ok classpath2 clean2 →
      clean2 = clean ++ (libs.map clean_line).flatten := by
  intro libs
  induction libs with
  | nil =>
    intro cp cl cp2 cl2 h
    rw [library_loop] at h
    cases h
    simp
  | cons l rest ih =>
    intro cp cl cp2 cl2 h
    rw [library_loop] at h
    cases hd : download_library sep major_version l (dest l) (net l) cp cl with
    | ok cp3 cl3 d =>
      rw [hd] at h
      dsimp only at h
      have h1 := ih cp3 cl3 cp2 cl2 h
      have h2 := download_library_ok_clean sep major_version l (dest l) (net l)
        cp cl cp3 cl3 d hd
      simp [h1, h2, List.append_assoc]
    | fatal e cp3 cl3 => rw [hd] at h; cases h
    | panicked => rw [hd] at h; cases h

/-- Claim C9: every library passing the `clientreq` filter has its
`group:artifact` line appended to the clean classpath (so a run of the
loop that completes has recorded every processed library there, the
skipped ones included), a 404-skipped library leaves the classpath string
unchanged while still contributing its clean line, and a built-in
`net.minecraftforge:forge` library likewise contributes its clean line
without being downloaded. -/
theorem claim_c9 (sep : List Char) (major_version : Nat)
    (dest : JsonDetailsLibrary → Bool) (net : JsonDetailsLibrary → DownloadOutcome)
    (libraries : List JsonDetailsLibrary)
    (classpath clean classpath2 clean2 : List Char)
    (h : library_loop sep major_version dest net (client_filter libraries)
      classpath clean = .ok classpath2 clean2) :
    clean2 = clean ++ ((client_filter libraries).map clean_line).flatten ∧
    (∀ (library : JsonDetailsLibrary) (classGroup lib ver : List Char)
        (rest : List (List Char)) (file path cp cl : List Char),
      splitOnChar ':' library.name = classGroup :: lib :: ver :: rest →
      get_filename_and_path lib ver library classGroup = .ok (file, path) →
      ¬(classGroup = str "net.minecraftforge" ∧ lib = str "forge") →
      download_library sep major_version library false .notFound cp cl =
        .ok cp (cl ++ clean_line library) false) ∧
    (∀ (library : JsonDetailsLibrary) (ver : List Char)
        (rest : List (List Char)) (file path cp cl : List Char),
      splitOnChar ':' library.name =
        str "net.minecraftforge" :: str "forge" :: ver :: rest →
      get_filename_and_path (str "forge") ver library (str "net.minecraftforge") =
        .ok (file, path) →
      download_library sep major_version library (dest library) (net library) cp cl =
        .ok (if major_version > 48 then add_to_classpath sep cp path file else cp)
          (cl ++ clean_line library) false) := by
  refine ⟨library_loop_clean sep major_version dest net _ _ _ _ _ h, ?_, ?_⟩
  · intro library classGroup lib ver rest file path cp cl hname hfp hnotforge
    rw [download_library_eq sep major_version library false .notFound cp cl
      _ _ _ _ hname]
    dsimp only
    rw [hfp, clean_line, hname]
    simp [hnotforge]
  · intro library ver rest file path cp cl hname hfp
    rw [download_library_eq sep major_version library (dest library) (net library)
      cp cl _ _ _ _ hname]
    dsimp only
    rw [hfp, clean_line, hname]
    simp

/-- Witness for Claim C9: a single junit library whose download 404s
completes the loop with its `junit:junit` line recorded in the clean
classpath. -/
theorem claim_c9_witness :
    str "junit:junit\n" =
      [] ++ ((client_filter [⟨str "junit:junit:4.12", none, none, none⟩]).map
        clean_line).flatten :=
  (claim_c9 (str ":") 14 (fun _ => false) (fun _ => .notFound)
    [⟨str "junit:junit:4.12", none, none, none⟩] [] [] [] (str "junit:junit\n")
    (by decide)).1

/-- Witness for Claim C10: the name `"junit"` has no colon at all, and
`download_library` panics on it; the three-component name
`"junit:junit:4.12"` does not panic. -/
theorem claim_c10_witness :
    download_library (str ":") 14 ⟨str "junit", none, none, none⟩ false .success [] [] =
      .panicked ∧
    download_library (str ":") 14 ⟨str "junit:junit:4.12", none, none, none⟩
        false .success [] [] ≠ .panicked :=
  ⟨(claim_c10 (str ":") 14 ⟨str "junit", none, none, none⟩ false .success [] []).1
      (by decide),
   (claim_c10 (str ":") 14 ⟨str "junit:junit:4.12", none, none, none⟩ false
      .success [] []).2 (by decide)⟩

end CubeLauncher
